import Mathlib

/-!
Verification development for the `sentry_telegram_plus` notification plugin
(`sentry_telegram_plus/plugin.py`).  The routing and rendering engine is
shallowly embedded: JSON values become an inductive type, events become a
structure, and each Python function of the module becomes a Lean function of
the same name (leading underscores kept where the source has them).
-/

namespace SentryTelegramPlus

/-- First-match lookup in an association list; models lookup in a Python
`dict` whose keys are unique (as produced by `pyDict` below). -/
def assocFind {α : Type} : List (String × α) → String → Option α
  | [], _ => none
  | p :: rest, k => if p.1 == k then some p.2 else assocFind rest k

/-- Last-match lookup in an association list: the value of the *last* pair
carrying the key.  Models lookup in the Python dict obtained from a pair
sequence (`dict(pairs)` and `json.loads` object decoding both keep the last
value written for a repeated key). -/
def assocLast {α : Type} : List (String × α) → String → Option α
  | [], _ => none
  | p :: rest, k =>
    match assocLast rest k with
    | some v => some v
    | none => if p.1 == k then some p.2 else none

/-- Python `d[k] = v` on a dict represented as a key-unique association list:
replaces the value in place if the key exists, else appends.  Preserves the
original insertion position of an existing key, as CPython dicts do. -/
def dictSet {α : Type} : List (String × α) → String → α → List (String × α)
  | [], k, v => [(k, v)]
  | p :: rest, k, v =>
    if p.1 == k then (p.1, v) :: rest else p :: dictSet rest k v

/-- Python `dict(pairs)`: fold the pair sequence into a key-unique mapping,
first-occurrence key order, last-write-wins values. -/
def pyDict {α : Type} (l : List (String × α)) : List (String × α) :=
  l.foldl (fun m p => dictSet m p.1 p.2) []

/-- Python `s.split(sep)` for a one-character separator (no maxsplit), on
character lists.  `"".split(sep)` gives `[""]`, i.e. `[[]]`. -/
def splitList (sep : Char) : List Char → List (List Char)
  | [] => [[]]
  | c :: rest =>
    match splitList sep rest with
    | h :: t => if c = sep then [] :: h :: t else (c :: h) :: t
    | [] => if c = sep then [[], []] else [[c]]

/-- Python `sep.join(parts)`. -/
def joinSep (sep : String) : List String → String
  | [] => ""
  | [s] => s
  | s :: rest => s ++ sep ++ joinSep sep rest

/-- Whitespace set of Python `str.strip()` (ASCII part). -/
def pySpace (c : Char) : Bool :=
  c == ' ' || c == '\t' || c == '\n' || c == '\r' || c == Char.ofNat 11 ||
    c == Char.ofNat 12

/-- Python `s.strip()`. -/
def pyStrip (s : String) : String :=
  String.mk (((s.data.dropWhile pySpace).reverse.dropWhile pySpace).reverse)

/-- Python slicing `s[:n]`. -/
def strTake (s : String) (n : Nat) : String :=
  String.mk (s.data.take n)

/-- JSON values as decoded by `json.loads` (numbers restricted to integers;
no claim involves a fractional number).  Objects are pair lists; key lookup
uses `assocLast` to reproduce `json.loads`'s last-write-wins duplicate-key
handling. -/
inductive Json where
  | null
  | bool (b : Bool)
  | num (n : Int)
  | str (s : String)
  | arr (elems : List Json)
  | obj (fields : List (String × Json))

/-- Key lookup on a decoded JSON value: `obj.get(k)` when the value is an
object, `None`-like absence otherwise (a non-dict has no keys). -/
def jGet (j : Json) (k : String) : Option Json :=
  match j with
  | Json.obj kvs => assocLast kvs k
  | _ => none

/-- Python truthiness of a decoded JSON value (`None`, `False`, `0`, `""`,
`[]`, and the empty mapping are falsy). -/
def pyTruthy : Json → Bool
  | Json.null => false
  | Json.bool b => b
  | Json.num n => n != 0
  | Json.str s => s != ""
  | Json.arr l => !l.isEmpty
  | Json.obj kvs => !kvs.isEmpty

/-- Truthiness of an optional value, absence (`dict.get` miss) being falsy. -/
def pyTruthyOpt : Option Json → Bool
  | none => false
  | some j => pyTruthy j

/-- An incoming Sentry event, as read by the plugin: `title`, optional
`message`, the ordered `tags` pair sequence (keys may repeat), `level`, the
project slug when the event has a project, and the raw payload returned by
`event.get_raw_data()`. -/
structure Event where
  title : String
  message : Option String
  tags : List (String × String)
  level : String
  projectSlug : Option String
  raw : Json

/-- Whether `needle` occurs as a contiguous sublist of the second list. -/
def listContainsSub (needle : List Char) : List Char → Bool
  | [] => needle.isEmpty
  | c :: rest => needle.isPrefixOf (c :: rest) || listContainsSub needle rest

/-- Whether `sub` occurs as a substring of `s`. -/
def strContainsSub (s sub : String) : Bool :=
  listContainsSub sub.data s.data

/-- Modelled from the spec: the module calls `self._check_regex_match` but no
definition of it exists under `src/`; per the spec (§4.2) leaf regex
predicates perform a case-insensitive regex *search* (patterns are compiled
with `re.IGNORECASE` by `_get_compiled_regex`).  Modelled here for literal
patterns, optionally carrying the inline flag prefix `(?i)` (redundant under
`IGNORECASE`): a case-insensitive substring search.  Every claim exercises
only such patterns. -/
def regexSearchCI (pattern text : String) : Bool :=
  let pat :=
    if "(?i)".data.isPrefixOf pattern.data then pattern.data.drop 4
    else pattern.data
  listContainsSub (pat.map Char.toLower) (text.data.map Char.toLower)

/-- Modelled from the spec: `_check_regex_match(text, pattern)` with a
possibly missing text value — the spec (§4.2) requires that a regex search
on a missing value never matches (a lookup miss is "no match", not an
error). -/
def _check_regex_match (text : Option String) (pattern : String) : Bool :=
  match text with
  | none => false
  | some t => regexSearchCI pattern t

/-- `_escape_markdown_v1`: prefixes a backslash to each character of the
Markdown-v1 special set `_*` + backtick + `[` and keeps every other
character. -/
def _escape_markdown_v1 (text : String) : String :=
  String.join (text.data.map (fun c =>
    if c = '_' || c = '*' || c = Char.ofNat 96 || c = '[' then
      String.mk ['\\', c]
    else
      String.mk [c]))

/-- `build_url`: the delivery endpoint. -/
def build_url (apiOrigin apiToken : String) : String :=
  apiOrigin ++ "/bot" ++ apiToken ++ "/sendMessage"

/-- Parsed URL pieces, as produced by `urllib.parse.urlparse` and consumed
by `_mask_url_token`. -/
structure UrlParts where
  scheme : String
  netloc : String
  path : String
  query : String

/-- Splits a character list at the first occurrence of `"://"`. -/
def findSchemeSplit : List Char → Option (List Char × List Char)
  | [] => none
  | ':' :: '/' :: '/' :: rest => some ([], rest)
  | c :: rest => (findSchemeSplit rest).map (fun p => (c :: p.1, p.2))

/-- Models `urllib.parse.urlparse` restricted to the URL shapes the plugin
builds and logs: an absolute URL `scheme://netloc/path` with an optional
`?query` and no params or fragment.  A string without `"://"` is treated as
all path. -/
def urlparse (url : String) : UrlParts :=
  match findSchemeSplit url.data with
  | none =>
    let (pathChars, qrest) := (url.data.takeWhile (· ≠ '?'),
      url.data.dropWhile (· ≠ '?'))
    ⟨"", "", String.mk pathChars, String.mk (qrest.drop 1)⟩
  | some (schemeChars, rest) =>
    let netlocChars := rest.takeWhile (· ≠ '/')
    let pathq := rest.dropWhile (· ≠ '/')
    let pathChars := pathq.takeWhile (· ≠ '?')
    let qrest := pathq.dropWhile (· ≠ '?')
    ⟨String.mk schemeChars, String.mk netlocChars, String.mk pathChars,
      String.mk (qrest.drop 1)⟩

/-- `_mask_url_token`: splits the parsed path on `/`, replaces the third
segment by `"..."` when the second segment is exactly the string `"bot"`,
and reassembles the URL. -/
def _mask_url_token (url : String) : String :=
  let p := urlparse url
  let parts := (splitList '/' p.path.data).map String.mk
  let parts2 :=
    match parts with
    | a :: b :: c :: rest => if b == "bot" then a :: b :: "..." :: rest
        else a :: b :: c :: rest
    | other => other
  let maskedPath := joinSep "/" parts2
  p.scheme ++ "://" ++ p.netloc ++ maskedPath ++
    (if p.query == "" then "" else "?" ++ p.query)

/-- Python `s.split("/", maxsplit=1)`. -/
def splitFirstSlash (s : String) : List String :=
  match s.data.takeWhile (· ≠ '/'), s.data.dropWhile (· ≠ '/') with
  | before, [] => [String.mk before]
  | before, _ :: after => [String.mk before, String.mk after]

/-- `get_receivers_list`: splits the receivers string on `;`, strips each
part, drops blank parts, and splits each remaining part on the first `/`
into chat id and optional thread id. -/
def get_receivers_list (receiversStr : String) : List (List String) :=
  if receiversStr == "" then []
  else
    (((splitList ';' receiversStr.data).map
        (fun part => pyStrip (String.mk part))).filter
      (fun stripped => stripped != "")).map splitFirstSlash

/-- The transport's maximum message length (`TELEGRAM_MAX_MESSAGE_LENGTH`). -/
def TELEGRAM_MAX_MESSAGE_LENGTH : Nat := 4096

/-- The truncation marker (`truncate_warning_text` in
`compile_message_text`). -/
def truncate_warning_text : String := "... (truncated)"

/-- A parsed `{}`-format template restricted to literal runs and plain
named substitution fields.  This restricted model carries the
length-budget/truncation analysis, whose statements are insensitive to the
field kind; the full replacement-field grammar — indexed fields such as
`{tag[level]}` and malformed fields — is modelled by `FormatItem` and
`formatTemplateFull` below and carries the missing-field-policy
analysis. -/
inductive TemplateItem where
  | lit (s : String)
  | field (name : String)

/-- The names of the fields a template references, in order. -/
def fieldNames (tpl : List TemplateItem) : List String :=
  tpl.filterMap (fun item =>
    match item with
    | TemplateItem.lit _ => none
    | TemplateItem.field n => some n)

/-- Python `template.format(**mapping)` restricted to plain named fields:
substitutes each field from the mapping; raises `KeyError` carrying the
first referenced name missing from the mapping (modelled as
`Except.error`).  The failure paths of the full grammar (`TypeError` from
indexing a string, `ValueError` from a malformed field) are modelled by
`formatTemplateFull` below. -/
def formatTemplate (tpl : List TemplateItem) (mapping : List (String × String)) :
    Except String String :=
  match tpl with
  | [] => Except.ok ""
  | TemplateItem.lit s :: rest =>
    (formatTemplate rest mapping).map (fun r => s ++ r)
  | TemplateItem.field n :: rest =>
    match assocFind mapping n with
    | some v => (formatTemplate rest mapping).map (fun r => v ++ r)
    | none => Except.error n

/-- `template.format(**message_params, message=msg)`: the keyword mapping
extended with the `message` binding (the plugin's `message_params` never
carries a `message` key itself). -/
def withMessage (params : List (String × String)) (msg : String) :
    List (String × String) :=
  params ++ [("message", msg)]

/-- The budget-estimation render of `compile_message_text`: format with the
truncation marker standing in for `message`; on a missing key, substitute
`"-"` for that key and retry once; a key missing from the retried render
propagates.  Yields the rendered length. -/
def budgetRenderLen (tpl : List TemplateItem)
    (params : List (String × String)) : Except String Nat :=
  match formatTemplate tpl (withMessage params truncate_warning_text) with
  | Except.ok s => Except.ok s.length
  | Except.error missingKey =>
    match formatTemplate tpl
        (withMessage (dictSet params missingKey "-") truncate_warning_text) with
    | Except.ok s => Except.ok s.length
    | Except.error e => Except.error e

/-- `max_message_body_len` of `compile_message_text`: the maximum length
minus the budget-estimation render length, floored at zero. -/
def messageBudget (tpl : List TemplateItem)
    (params : List (String × String)) : Except String Nat :=
  (budgetRenderLen tpl params).map (fun len =>
    let m : Int := (TELEGRAM_MAX_MESSAGE_LENGTH : Int) - (len : Int)
    if m < 0 then 0 else m.toNat)

/-- The body actually substituted for `message` in the final render: the
event message hard-truncated to the budget with the truncation marker
appended when it exceeds the budget, unchanged otherwise. -/
def truncatedBody (budget : Nat) (eventMessage : String) : String :=
  if eventMessage.length > budget then
    strTake eventMessage budget ++ truncate_warning_text
  else eventMessage

/-- `compile_message_text` over the plain-field restriction: compute the
body budget from the budget-estimation render, truncate the event message
to it, then render for real — again retrying once with `"-"` on a missing
key; a second missing key in either render propagates (uncaught in the
source).  `compile_message_text_full` below is the same function over the
full replacement-field grammar. -/
def compile_message_text (tpl : List TemplateItem)
    (params : List (String × String)) (eventMessage : String) :
    Except String String :=
  match messageBudget tpl params with
  | Except.error e => Except.error e
  | Except.ok budget =>
    let body := truncatedBody budget eventMessage
    match formatTemplate tpl (withMessage params body) with
    | Except.ok s => Except.ok s
    | Except.error missingKey =>
      formatTemplate tpl (withMessage (dictSet params missingKey "-") body)

/-- A value found by `assocLast` is smaller than the pair list holding it
(termination measure for the recursive filter-tree and JSON-search
functions). -/
def sizeOf_assocLast :
    ∀ {kvs : List (String × Json)} {k : String} {v : Json},
      assocLast kvs k = some v → sizeOf v < sizeOf kvs
  | [], _, _, h => by simp [assocLast] at h
  | p :: rest, k, v, h => by
    obtain ⟨a, b⟩ := p
    rw [assocLast] at h
    cases hr : assocLast rest k with
    | some w =>
      rw [hr] at h
      cases h
      have := sizeOf_assocLast hr
      simp only [List.cons.sizeOf_spec]
      omega
    | none =>
      rw [hr] at h
      by_cases hk : (a == k) = true
      · simp only [hk, if_true] at h
        cases h
        simp only [List.cons.sizeOf_spec, Prod.mk.sizeOf_spec]
        omega
      · simp [hk] at h

/-- `_recursive_search` (the inner function of `_search_in_json`):
depth-first search for a regex match against any mapping key or any string
value anywhere in the structure. -/
def _recursive_search (pattern : String) (j : Json) : Bool :=
  match j with
  | Json.obj kvs =>
    kvs.attach.any (fun p =>
      regexSearchCI pattern p.1.1 || _recursive_search pattern p.1.2)
  | Json.arr l => l.attach.any (fun x => _recursive_search pattern x.1)
  | Json.str s => regexSearchCI pattern s
  | _ => false
termination_by sizeOf j
decreasing_by
  · obtain ⟨⟨a, b⟩, hmem⟩ := p
    have h1 := List.sizeOf_lt_of_mem hmem
    simp only [Prod.mk.sizeOf_spec, Json.obj.sizeOf_spec] at h1 ⊢
    omega
  · have h1 := List.sizeOf_lt_of_mem x.2
    simp only [Json.arr.sizeOf_spec]
    omega

/-- `_search_in_json`: recursive regex search over the raw event payload.
The compiled-pattern cache and the compile-failure path are not modelled:
the modelled literal patterns always compile. -/
def _search_in_json (data : Json) (regexPattern : String) : Bool :=
  _recursive_search regexPattern data

/-- `filter_type.split("__", 1)[1]`: everything after the first `"__"` (the
callers guard with `startswith("tag__")`, so a separator is present). -/
def dropThroughDoubleUnderscore : List Char → List Char
  | [] => []
  | [_] => []
  | c :: c2 :: rest =>
    if c = '_' ∧ c2 = '_' then rest
    else dropThroughDoubleUnderscore (c2 :: rest)

/-- The tag name of a `tag__<name>` filter type. -/
def tagNameOf (filterType : String) : String :=
  String.mk (dropThroughDoubleUnderscore filterType.data)

/-- `_match_filter`: dispatch on the leaf predicate kind.  Unknown kinds are
false. -/
def _match_filter (e : Event) (filterType filterValue : String) : Bool :=
  if filterType == "regex__message" then
    _check_regex_match (some (e.message.getD "")) filterValue
  else if filterType == "regex__title" then
    _check_regex_match (some e.title) filterValue
  else if "tag__".data.isPrefixOf filterType.data then
    _check_regex_match (assocFind (pyDict e.tags) (tagNameOf filterType))
      filterValue
  else if filterType == "level" then e.level == filterValue
  else if filterType == "project_slug" then
    (match e.projectSlug with
     | none => false
     | some s => s == filterValue)
  else if filterType == "value__tag" then
    ((pyDict e.tags).map (fun p => p.2)).contains filterValue
  else if filterType == "event_raw_regex" then
    _search_in_json e.raw filterValue
  else false

/-- `_is_channel_filter`: a dict with a `type` key (presence, not
truthiness). -/
def _is_channel_filter (j : Json) : Bool :=
  match j with
  | Json.obj kvs => (assocLast kvs "type").isSome
  | _ => false

/-- `_is_filter_group`: a dict with an `and_filters` or `or_filters` key
(presence, not truthiness). -/
def _is_filter_group (j : Json) : Bool :=
  match j with
  | Json.obj kvs =>
    (assocLast kvs "and_filters").isSome || (assocLast kvs "or_filters").isSome
  | _ => false

/-- `_is_empty_filter`: absent or `null` filters, an empty list, or a dict
both of whose `and_filters`/`or_filters` values are absent or falsy. -/
def _is_empty_filter (filters : Option Json) : Bool :=
  match filters with
  | none => true
  | some Json.null => true
  | some (Json.arr l) => l.isEmpty
  | some (Json.obj kvs) =>
    !(pyTruthyOpt (assocLast kvs "and_filters") ||
      pyTruthyOpt (assocLast kvs "or_filters"))
  | some _ => false

/-- `self._match_filter(event, f["type"], f["value"])` on a raw JSON entry.
On a well-formed entry both accesses yield strings; an entry whose `type` or
`value` is present-but-non-string would crash the Python source
(AttributeError/KeyError inside `_match_filter`) and is totalized to false
here — no caller reaches that case in the claims. -/
def evalPredJson (e : Event) (f : Json) : Bool :=
  match jGet f "type", jGet f "value" with
  | some (Json.str t), some (Json.str v) => _match_filter e t v
  | _, _ => none = some true

/-- `_evaluate_filter_group`, with `_evaluate_single_filter_or_group`
inlined: an `and_filters` list matches iff every child (a channel filter, a
nested group, or an invalid entry evaluating to `None`-as-false) is true; an
`or_filters` list matches iff some child is true; a group with neither key
bound to a list is false.  `and_filters` takes precedence when both keys are
present. -/
def _evaluate_filter_group (e : Event) (g : Json) : Bool :=
  match g with
  | Json.obj kvs =>
    match hand : assocLast kvs "and_filters" with
    | some (Json.arr l) =>
      l.attach.all (fun sf =>
        if _is_channel_filter sf.1 then evalPredJson e sf.1
        else if _is_filter_group sf.1 then _evaluate_filter_group e sf.1
        else false)
    | _ =>
      match hor : assocLast kvs "or_filters" with
      | some (Json.arr l) =>
        l.attach.any (fun sf =>
          if _is_channel_filter sf.1 then evalPredJson e sf.1
          else if _is_filter_group sf.1 then _evaluate_filter_group e sf.1
          else false)
      | _ => false
  | _ => false
termination_by sizeOf g
decreasing_by
  · have h1 := sizeOf_assocLast hand
    have h2 := List.sizeOf_lt_of_mem sf.2
    simp only [Json.arr.sizeOf_spec, Json.obj.sizeOf_spec] at h1 ⊢
    omega
  · have h1 := sizeOf_assocLast hor
    have h2 := List.sizeOf_lt_of_mem sf.2
    simp only [Json.arr.sizeOf_spec, Json.obj.sizeOf_spec] at h1 ⊢
    omega

/-- Well-formedness of a bare-list filter entry as tested by the list branch
of `_check_filters_match`: a dict whose `type` and `value` are both
truthy. -/
def wellFormedChannelFilter (f : Json) : Bool :=
  match f with
  | Json.obj kvs =>
    pyTruthyOpt (assocLast kvs "type") && pyTruthyOpt (assocLast kvs "value")
  | _ => false

/-- `_check_filters_match`: a filter group is evaluated as a group; a bare
list is the conjunction over its well-formed entries (malformed entries are
dropped, so a list with none is vacuously true); anything else (including an
absent/`null` filters value) is false. -/
def _check_filters_match (e : Event) (filters : Option Json) : Bool :=
  match filters with
  | some f =>
    if _is_filter_group f then _evaluate_filter_group e f
    else
      match f with
      | Json.arr l =>
        (l.filter wellFormedChannelFilter).all (fun f => evalPredJson e f)
      | _ => false
  | none => false

/-- The body of `_get_channels_config_data` applied to the outcome of
`json.loads` on the (non-empty) configuration text: any decode error, a
non-dict top level, a missing or non-list `channels` key, or a
present-but-non-string `api_origin` key degrade to
`([], fallback)`; on success the decoded channels and the configured origin
(falling back when absent) are returned. -/
def parseChannelsConfig (decoded : Except String Json)
    (fallbackOrigin : String) : List Json × String :=
  match decoded with
  | Except.error _ => ([], fallbackOrigin)
  | Except.ok config =>
    match config with
    | Json.obj kvs =>
      match assocLast kvs "channels" with
      | some (Json.arr channels) =>
        match assocLast kvs "api_origin" with
        | none => (channels, fallbackOrigin)
        | some (Json.str origin) => (channels, origin)
        | some _ => ([], fallbackOrigin)
      | _ => ([], fallbackOrigin)
    | _ => ([], fallbackOrigin)

/-- `_get_channels_config_data`: `configJson` is the raw
`channels_config_json` option (absent or a string), `decoded` the outcome of
`json.loads` on it when non-empty, and `fallbackOrigin` the project's
`api_origin` option. -/
def _get_channels_config_data (configJson : Option String)
    (decoded : Except String Json) (fallbackOrigin : String) :
    List Json × String :=
  match configJson with
  | none => ([], fallbackOrigin)
  | some s =>
    if s == "" then ([], fallbackOrigin)
    else parseChannelsConfig decoded fallbackOrigin

/-- Python `str`/`repr` of a decoded JSON value as it appears *inside* a
container (strings quoted; string escaping inside reprs is not reproduced —
no claim depends on it). -/
def pyRepr (j : Json) : String :=
  match j with
  | Json.null => "None"
  | Json.bool true => "True"
  | Json.bool false => "False"
  | Json.num n => toString n
  | Json.str s =>
    String.singleton (Char.ofNat 39) ++ s ++ String.singleton (Char.ofNat 39)
  | Json.arr l =>
    "[" ++ joinSep ", " (l.attach.map (fun x => pyRepr x.1)) ++ "]"
  | Json.obj kvs =>
    "\x7b" ++
      joinSep ", " (kvs.attach.map (fun p =>
        String.singleton (Char.ofNat 39) ++ p.1.1 ++
          String.singleton (Char.ofNat 39) ++ ": " ++ pyRepr p.1.2)) ++
      "\x7d"
termination_by sizeOf j
decreasing_by
  · have h1 := List.sizeOf_lt_of_mem x.2
    simp only [Json.arr.sizeOf_spec]
    omega
  · obtain ⟨⟨a, b⟩, hmem⟩ := p
    have h1 := List.sizeOf_lt_of_mem hmem
    simp only [Prod.mk.sizeOf_spec, Json.obj.sizeOf_spec] at h1 ⊢
    omega

/-- Python `str(x)` of an optional channel field (`f"{cfg.get(k)}"`):
a missing key or `null` prints `None`, a string prints itself. -/
def pyStrOpt (v : Option Json) : String :=
  match v with
  | none => "None"
  | some Json.null => "None"
  | some (Json.bool true) => "True"
  | some (Json.bool false) => "False"
  | some (Json.num n) => toString n
  | some (Json.str s) => s
  | some (Json.arr l) => pyRepr (Json.arr l)
  | some (Json.obj kvs) => pyRepr (Json.obj kvs)

/-- The dedup identity of a channel:
`f"{cfg.get('api_token')}|{cfg.get('receivers')}"`. -/
def channelId (c : Json) : String :=
  pyStrOpt (jGet c "api_token") ++ "|" ++ pyStrOpt (jGet c "receivers")

/-- One iteration of the `_get_matching_channels` loop over
`(unique_matching_channels, default_channel)`: an empty-filter channel is
remembered as the default only when none was recorded yet and is otherwise
skipped; a non-empty-filter channel is inserted into the result dict keyed
by its identity when its filters match. -/
def scanStep (e : Event) (st : List (String × Json) × Option Json)
    (c : Json) : List (String × Json) × Option Json :=
  let filters := jGet c "filters"
  if _is_empty_filter filters then
    match st.2 with
    | none => (st.1, some c)
    | some _ => st
  else if _check_filters_match e filters then
    (dictSet st.1 (channelId c) c, st.2)
  else st

/-- The full pass of `_get_matching_channels` over the channel list. -/
def scanChannels (e : Event) (channels : List Json) :
    List (String × Json) × Option Json :=
  channels.foldl (scanStep e) ([], none)

/-- `_get_matching_channels`: after the pass, an empty result dict is
replaced by the recorded default channel — under Python truthiness
(`if not unique_matching_channels and default_channel:`), so a falsy
(empty-dict) default is *not* used.  Returns the result dict's values in
insertion order. -/
def _get_matching_channels (e : Event) (channels : List Json) : List Json :=
  let st := scanChannels e channels
  let m :=
    if st.1.isEmpty then
      match st.2 with
      | some d => if pyTruthy d then [(channelId d, d)] else []
      | none => []
    else st.1
  m.map (fun p => p.2)

/-- The first channel in configured order whose filters are empty — the
default candidate `_get_matching_channels` records. -/
def firstDefaultChannel (channels : List Json) : Option Json :=
  channels.find? (fun c => _is_empty_filter (jGet c "filters"))

/-- Whether a decoded JSON value is a mapping. -/
def jsonIsObj : Json → Bool
  | Json.obj _ => true
  | _ => false

/-- Whether a decoded JSON value is a sequence. -/
def jsonIsArr : Json → Bool
  | Json.arr _ => true
  | _ => false

/-- Whether a decoded JSON value is a string. -/
def jsonIsStr : Json → Bool
  | Json.str _ => true
  | _ => false

/-- A featureless event fixture used by concrete instances. -/
def evBlank : Event := ⟨"", none, [], "", none, Json.null⟩

/-- The event of the spec's routing scenario: title `"Error occurred"`. -/
def evErrorTitle : Event := ⟨"Error occurred", none, [], "error", none, Json.null⟩

/-- The channel of the spec's routing scenario. -/
def chScenario : Json :=
  Json.obj [("api_token", Json.str "T"), ("receivers", Json.str "-100/5;-200"),
    ("filters", Json.arr [Json.obj [("type", Json.str "regex__title"),
      ("value", Json.str "(?i)error")]])]

/-- An event carrying a repeated tag key whose earlier value is shadowed. -/
def evShadowedTag : Event :=
  ⟨"", none, [("env", "prod"), ("env", "dev")], "", none, Json.null⟩

/-- A filterless (default) channel fixture. -/
def chDefaultFixture : Json := Json.obj [("api_token", Json.str "D")]

/-- A template whose non-body part is 4081 characters, so that the
budget-estimation render with the 15-character truncation marker is exactly
4096 characters long. -/
def tplHuge : List TemplateItem :=
  [TemplateItem.lit (String.mk (List.replicate 4081 'a')),
    TemplateItem.field "message"]

/-- A filters list whose single entry is not a well-formed predicate. -/
def bogusFilters : List Json := [Json.obj [("bogus", Json.num 1)]]

/-- A value of the rendering-field mapping passed to `str.format`: either a
plain string, or the tag-lookup object — `build_message`'s
`defaultdict(lambda: "[NA]")` over the event tags, whose indexing never
fails (an unknown key yields the default). -/
inductive PyValue where
  | str (s : String)
  | tagDict (entries : List (String × String)) (dflt : String)
deriving DecidableEq

/-- A parsed replacement field of a `{}`-format template, covering the
grammar `compile_message_text` can receive: literal runs, plain named
fields `{name}`, indexed fields `{name[key]}` (the spec's tag lookups, used
by the plugin's default template as `{tag[level]}`), and a syntactically
malformed replacement field (e.g. an unterminated `{`), which `str.format`
rejects with `ValueError` when scanning reaches it. -/
inductive FormatItem where
  | lit (s : String)
  | field (name : String)
  | index (name : String) (key : String)
  | malformed
deriving DecidableEq

/-- The exceptions `str.format` raises while rendering: `KeyError` (carrying
the missing field name), `TypeError` (string indexing / duplicate keyword
argument), `ValueError` (malformed field syntax).  Only `KeyError` is caught
by `compile_message_text`'s retry. -/
inductive FormatError where
  | keyError (name : String)
  | typeError
  | valueError
deriving DecidableEq

/-- The names the template's replacement fields reference, in order. -/
def refNames (tpl : List FormatItem) : List String :=
  tpl.filterMap (fun item =>
    match item with
    | FormatItem.lit _ => none
    | FormatItem.field n => some n
    | FormatItem.index n _ => some n
    | FormatItem.malformed => none)

/-- `str()` of a substituted mapping value — the exact repr text of the
tag-lookup defaultdict is approximated (no claim depends on its
characters). -/
def pyValueFormat : PyValue → String
  | PyValue.str s => s
  | PyValue.tagDict entries dflt =>
    "defaultdict(" ++ dflt ++ ", \x7b" ++
      joinSep ", " (entries.map (fun p =>
        String.singleton (Char.ofNat 39) ++ p.1 ++
          String.singleton (Char.ofNat 39) ++ ": " ++
          String.singleton (Char.ofNat 39) ++ p.2 ++
          String.singleton (Char.ofNat 39))) ++ "\x7d)"

/-- Python `template.format(**mapping)` over the full replacement-field
grammar: fields are substituted left to right and the first failure is
raised — `KeyError name` for a missing name, `TypeError` for indexing a
string value (`"-"["level"]`), `ValueError` for a malformed field; indexing
the tag-lookup object never fails (unknown keys yield its default). -/
def formatTemplateFull (tpl : List FormatItem)
    (mapping : List (String × PyValue)) : Except FormatError String :=
  match tpl with
  | [] => Except.ok ""
  | FormatItem.lit s :: rest =>
    (formatTemplateFull rest mapping).map (fun r => s ++ r)
  | FormatItem.field n :: rest =>
    match assocFind mapping n with
    | none => Except.error (FormatError.keyError n)
    | some v => (formatTemplateFull rest mapping).map
        (fun r => pyValueFormat v ++ r)
  | FormatItem.index n k :: rest =>
    match assocFind mapping n with
    | none => Except.error (FormatError.keyError n)
    | some (PyValue.str _) => Except.error FormatError.typeError
    | some (PyValue.tagDict entries dflt) =>
      (formatTemplateFull rest mapping).map
        (fun r => (assocFind entries k).getD dflt ++ r)
  | FormatItem.malformed :: _ => Except.error FormatError.valueError

/-- `template.format(**message_params, message=msg)`: building the call
raises `TypeError` when the mapping already binds `message` (duplicate
keyword argument); otherwise the mapping extended with the `message`
binding is formatted. -/
def formatWithMessage (tpl : List FormatItem)
    (params : List (String × PyValue)) (msg : String) :
    Except FormatError String :=
  if params.any (fun p => p.1 == "message") then Except.error FormatError.typeError
  else formatTemplateFull tpl (params ++ [("message", PyValue.str msg)])

/-- The budget-estimation render of `compile_message_text` over the full
grammar: format with the truncation marker standing in for `message`; a
`KeyError` is caught once, the missing key is bound to `"-"` and the render
retried; any other exception, or a failure of the retried render,
propagates. -/
def budgetRenderLenFull (tpl : List FormatItem)
    (params : List (String × PyValue)) : Except FormatError Nat :=
  match formatWithMessage tpl params truncate_warning_text with
  | Except.ok s => Except.ok s.length
  | Except.error (FormatError.keyError missingKey) =>
    match formatWithMessage tpl (dictSet params missingKey (PyValue.str "-"))
        truncate_warning_text with
    | Except.ok s => Except.ok s.length
    | Except.error e => Except.error e
  | Except.error e => Except.error e

/-- `max_message_body_len` over the full grammar. -/
def messageBudgetFull (tpl : List FormatItem)
    (params : List (String × PyValue)) : Except FormatError Nat :=
  (budgetRenderLenFull tpl params).map (fun len =>
    let m : Int := (TELEGRAM_MAX_MESSAGE_LENGTH : Int) - (len : Int)
    if m < 0 then 0 else m.toNat)

/-- `compile_message_text` over the full replacement-field grammar: budget
estimation, body truncation, final render — each render step retrying once
with `"-"` on a `KeyError` only; `TypeError`/`ValueError` and a second
`KeyError` propagate. -/
def compile_message_text_full (tpl : List FormatItem)
    (params : List (String × PyValue)) (eventMessage : String) :
    Except FormatError String :=
  match messageBudgetFull tpl params with
  | Except.error e => Except.error e
  | Except.ok budget =>
    let body := truncatedBody budget eventMessage
    match formatWithMessage tpl params body with
    | Except.ok s => Except.ok s
    | Except.error (FormatError.keyError missingKey) =>
      formatWithMessage tpl (dictSet params missingKey (PyValue.str "-")) body
    | Except.error e => Except.error e

/-- A template exercising an indexed field, a missing plain field and the
message field, with the tag lookup bound. -/
def tplIndexed : List FormatItem :=
  [FormatItem.index "tag" "level", FormatItem.lit ": ",
    FormatItem.field "title", FormatItem.field "message"]

/-- The mapping for `tplIndexed`: only `tag` is bound (to the tag-lookup
object); `title` is the single missing referenced field. -/
def paramsIndexed : List (String × PyValue) :=
  [("tag", PyValue.tagDict [("level", "error")] "[NA]")]

/-! ### Association-list lemmas -/

lemma assocFind_eq_none_of_forall {α : Type} {m : List (String × α)}
    {k : String} (h : ∀ p ∈ m, p.1 ≠ k) : assocFind m k = none := by
  induction m with
  | nil => rfl
  | cons p rest ih =>
    have hp : p.1 ≠ k := h p (List.mem_cons_self _ _)
    simp only [assocFind, beq_eq_false_iff_ne.mpr hp, Bool.false_eq_true,
      if_false]
    exact ih (fun q hq => h q (List.mem_cons_of_mem _ hq))

lemma assocFind_dictSet {α : Type} (m : List (String × α)) (k : String)
    (v : α) (n : String) :
    assocFind (dictSet m k v) n = if n = k then some v else assocFind m n := by
  induction m with
  | nil =>
    by_cases h : n = k
    · subst h; simp [dictSet, assocFind]
    · simp [dictSet, assocFind, h, beq_eq_false_iff_ne.mpr (Ne.symm h)]
  | cons p rest ih =>
    by_cases hpk : p.1 = k
    · subst hpk
      by_cases hn : n = p.1
      · subst hn; simp [dictSet, assocFind]
      · simp [dictSet, assocFind, hn, beq_eq_false_iff_ne.mpr (Ne.symm hn)]
    · by_cases hn : p.1 = n
      · subst hn
        simp [dictSet, assocFind, beq_eq_false_iff_ne.mpr hpk, hpk]
      · simp [dictSet, assocFind, beq_eq_false_iff_ne.mpr hpk,
          beq_eq_false_iff_ne.mpr hn, ih]

lemma mem_dictSet {α : Type} {m : List (String × α)} {k : String} {v : α}
    {q : String × α} (h : q ∈ dictSet m k v) : q ∈ m ∨ q.2 = v := by
  induction m with
  | nil =>
    simp [dictSet] at h
    subst h; right; rfl
  | cons p rest ih =>
    by_cases hpk : (p.1 == k) = true
    · simp [dictSet, hpk] at h
      rcases h with h | h
      · right; rw [h]
      · left; exact List.mem_cons_of_mem _ h
    · simp only [dictSet, hpk, Bool.false_eq_true, if_false] at h
      rcases List.mem_cons.mp h with h | h
      · left; exact h ▸ List.mem_cons_self _ _
      · rcases ih h with h | h
        · left; exact List.mem_cons_of_mem _ h
        · right; exact h

lemma assocFind_append {α : Type} (xs ys : List (String × α)) (n : String) :
    assocFind (xs ++ ys) n =
      match assocFind xs n with
      | some v => some v
      | none => assocFind ys n := by
  induction xs with
  | nil => rfl
  | cons p rest ih =>
    by_cases hp : (p.1 == n) = true
    · simp [assocFind, hp]
    · simp [assocFind, hp, ih]

lemma assocFind_append_right_ne {α : Type} (xs : List (String × α))
    (k : String) (v : α) {n : String} (hn : n ≠ k) :
    assocFind (xs ++ [(k, v)]) n = assocFind xs n := by
  rw [assocFind_append]
  cases h : assocFind xs n with
  | some w => rfl
  | none =>
    simp [assocFind, beq_eq_false_iff_ne.mpr (fun h => hn h.symm)]

lemma assocFind_append_right_self {α : Type} {xs : List (String × α)}
    (k : String) (v : α) (h : assocFind xs k = none) :
    assocFind (xs ++ [(k, v)]) k = some v := by
  rw [assocFind_append, h]
  simp [assocFind]

lemma assocFind_append_of_some {α : Type} {xs : List (String × α)}
    (ys : List (String × α)) {n : String} {v : α}
    (h : assocFind xs n = some v) : assocFind (xs ++ ys) n = some v := by
  rw [assocFind_append, h]

lemma keys_dictSet_subset {α : Type} {m : List (String × α)} {k : String}
    {v : α} {x : String} (h : x ∈ (dictSet m k v).map Prod.fst) :
    x ∈ m.map Prod.fst ∨ x = k := by
  induction m with
  | nil =>
    simp [dictSet] at h
    exact Or.inr h
  | cons p rest ih =>
    by_cases hpk : (p.1 == k) = true
    · simp only [dictSet, hpk, if_true, List.map_cons, List.mem_cons] at h
      rcases h with h | h
      · exact Or.inl (by simp [h])
      · exact Or.inl (by simp [h])
    · simp only [dictSet, hpk, Bool.false_eq_true, if_false, List.map_cons,
        List.mem_cons] at h
      rcases h with h | h
      · exact Or.inl (by simp [h])
      · rcases ih h with h2 | h2
        · exact Or.inl (by rw [List.map_cons]; exact List.mem_cons_of_mem _ h2)
        · exact Or.inr h2

/-! ### Template-rendering lemmas (full replacement-field grammar) -/

lemma formatFull_keyError {tpl : List FormatItem}
    {M : List (String × PyValue)} {k : String}
    (h : formatTemplateFull tpl M = Except.error (FormatError.keyError k)) :
    k ∈ refNames tpl ∧ assocFind M k = none := by
  induction tpl with
  | nil => simp [formatTemplateFull] at h
  | cons item rest ih =>
    cases item with
    | lit s =>
      rw [formatTemplateFull] at h
      cases hr : formatTemplateFull rest M with
      | ok s2 => rw [hr] at h; simp [Except.map] at h
      | error e =>
        rw [hr] at h
        simp only [Except.map, Except.error.injEq] at h
        subst h
        exact ⟨by simpa [refNames] using (ih hr).1, (ih hr).2⟩
    | field n =>
      rw [formatTemplateFull] at h
      cases hf : assocFind M n with
      | none =>
        rw [hf] at h
        rw [Except.error.injEq, FormatError.keyError.injEq] at h
        subst h
        exact ⟨by simp [refNames], hf⟩
      | some v =>
        rw [hf] at h
        cases hr : formatTemplateFull rest M with
        | ok s2 => rw [hr] at h; simp [Except.map] at h
        | error e =>
          rw [hr] at h
          simp only [Except.map, Except.error.injEq] at h
          subst h
          exact ⟨by simpa [refNames] using Or.inr (ih hr).1, (ih hr).2⟩
    | index n k2 =>
      rw [formatTemplateFull] at h
      cases hf : assocFind M n with
      | none =>
        rw [hf] at h
        rw [Except.error.injEq, FormatError.keyError.injEq] at h
        subst h
        exact ⟨by simp [refNames], hf⟩
      | some v =>
        rw [hf] at h
        cases v with
        | str s => simp at h
        | tagDict e d =>
          cases hr : formatTemplateFull rest M with
          | ok s2 => rw [hr] at h; simp [Except.map] at h
          | error e2 =>
            rw [hr] at h
            simp only [Except.map, Except.error.injEq] at h
            subst h
            exact ⟨by simpa [refNames] using Or.inr (ih hr).1, (ih hr).2⟩
    | malformed => simp [formatTemplateFull] at h

lemma formatFull_typeError {tpl : List FormatItem}
    {M : List (String × PyValue)}
    (h : formatTemplateFull tpl M = Except.error FormatError.typeError) :
    ∃ n k s, FormatItem.index n k ∈ tpl ∧
      assocFind M n = some (PyValue.str s) := by
  induction tpl with
  | nil => simp [formatTemplateFull] at h
  | cons item rest ih =>
    cases item with
    | lit s =>
      rw [formatTemplateFull] at h
      cases hr : formatTemplateFull rest M with
      | ok s2 => rw [hr] at h; simp [Except.map] at h
      | error e =>
        rw [hr] at h
        simp only [Except.map, Except.error.injEq] at h
        subst h
        obtain ⟨n, k, s2, hmem, hf⟩ := ih hr
        exact ⟨n, k, s2, List.mem_cons_of_mem _ hmem, hf⟩
    | field n =>
      rw [formatTemplateFull] at h
      cases hf : assocFind M n with
      | none => rw [hf] at h; simp at h
      | some v =>
        rw [hf] at h
        cases hr : formatTemplateFull rest M with
        | ok s2 => rw [hr] at h; simp [Except.map] at h
        | error e =>
          rw [hr] at h
          simp only [Except.map, Except.error.injEq] at h
          subst h
          obtain ⟨n2, k, s2, hmem, hf2⟩ := ih hr
          exact ⟨n2, k, s2, List.mem_cons_of_mem _ hmem, hf2⟩
    | index n k2 =>
      rw [formatTemplateFull] at h
      cases hf : assocFind M n with
      | none => rw [hf] at h; simp at h
      | some v =>
        rw [hf] at h
        cases v with
        | str s => exact ⟨n, k2, s, List.mem_cons_self _ _, hf⟩
        | tagDict e d =>
          cases hr : formatTemplateFull rest M with
          | ok s2 => rw [hr] at h; simp [Except.map] at h
          | error e2 =>
            rw [hr] at h
            simp only [Except.map, Except.error.injEq] at h
            subst h
            obtain ⟨n2, k, s2, hmem, hf2⟩ := ih hr
            exact ⟨n2, k, s2, List.mem_cons_of_mem _ hmem, hf2⟩
    | malformed => simp [formatTemplateFull] at h

lemma formatFull_valueError {tpl : List FormatItem}
    {M : List (String × PyValue)}
    (h : formatTemplateFull tpl M = Except.error FormatError.valueError) :
    FormatItem.malformed ∈ tpl := by
  induction tpl with
  | nil => simp [formatTemplateFull] at h
  | cons item rest ih =>
    cases item with
    | lit s =>
      rw [formatTemplateFull] at h
      cases hr : formatTemplateFull rest M with
      | ok s2 => rw [hr] at h; simp [Except.map] at h
      | error e =>
        rw [hr] at h
        simp only [Except.map, Except.error.injEq] at h
        subst h
        exact List.mem_cons_of_mem _ (ih hr)
    | field n =>
      rw [formatTemplateFull] at h
      cases hf : assocFind M n with
      | none => rw [hf] at h; simp at h
      | some v =>
        rw [hf] at h
        cases hr : formatTemplateFull rest M with
        | ok s2 => rw [hr] at h; simp [Except.map] at h
        | error e =>
          rw [hr] at h
          simp only [Except.map, Except.error.injEq] at h
          subst h
          exact List.mem_cons_of_mem _ (ih hr)
    | index n k2 =>
      rw [formatTemplateFull] at h
      cases hf : assocFind M n with
      | none => rw [hf] at h; simp at h
      | some v =>
        rw [hf] at h
        cases v with
        | str s => simp at h
        | tagDict e d =>
          cases hr : formatTemplateFull rest M with
          | ok s2 => rw [hr] at h; simp [Except.map] at h
          | error e2 =>
            rw [hr] at h
            simp only [Except.map, Except.error.injEq] at h
            subst h
            exact List.mem_cons_of_mem _ (ih hr)
    | malformed => exact List.mem_cons_self _ _

lemma formatFull_ok_of_forall {tpl : List FormatItem}
    {M : List (String × PyValue)}
    (hmal : FormatItem.malformed ∉ tpl)
    (hidx : ∀ n k, FormatItem.index n k ∈ tpl →
      ∃ e d, assocFind M n = some (PyValue.tagDict e d))
    (hbound : ∀ n ∈ refNames tpl, (assocFind M n).isSome = true) :
    ∃ s, formatTemplateFull tpl M = Except.ok s := by
  induction tpl with
  | nil => exact ⟨"", rfl⟩
  | cons item rest ih =>
    have hmal2 : FormatItem.malformed ∉ rest :=
      fun hmem => hmal (List.mem_cons_of_mem _ hmem)
    have hidx2 : ∀ n k, FormatItem.index n k ∈ rest →
        ∃ e d, assocFind M n = some (PyValue.tagDict e d) :=
      fun n k hmem => hidx n k (List.mem_cons_of_mem _ hmem)
    cases item with
    | lit s =>
      obtain ⟨r, hr⟩ := ih hmal2 hidx2
        (fun n hn => hbound n (by simpa [refNames] using hn))
      exact ⟨s ++ r, by rw [formatTemplateFull, hr]; rfl⟩
    | field n =>
      have hn : (assocFind M n).isSome = true := hbound n (by simp [refNames])
      obtain ⟨v, hv⟩ := Option.isSome_iff_exists.mp hn
      obtain ⟨r, hr⟩ := ih hmal2 hidx2
        (fun n2 hn2 => hbound n2 (by simpa [refNames] using Or.inr hn2))
      exact ⟨pyValueFormat v ++ r, by rw [formatTemplateFull, hv, hr]; rfl⟩
    | index n k =>
      obtain ⟨e, d, hv⟩ := hidx n k (List.mem_cons_self _ _)
      obtain ⟨r, hr⟩ := ih hmal2 hidx2
        (fun n2 hn2 => hbound n2 (by simpa [refNames] using Or.inr hn2))
      exact ⟨(assocFind e k).getD d ++ r,
        by rw [formatTemplateFull, hv, hr]; rfl⟩
    | malformed => exact absurd (List.mem_cons_self _ _) hmal

lemma any_key_message_false {α : Type} {params : List (String × α)}
    (hm : ∀ p ∈ params, p.1 ≠ "message") :
    (params.any (fun p => p.1 == "message")) = false := by
  rw [List.any_eq_false]
  intro p hp
  simp only [beq_iff_eq]
  exact hm p hp

/-- Either a render step of `compile_message_text` succeeds directly, or it
raises exactly one `KeyError` and the retried render with that key bound to
`"-"` succeeds — provided the mapping does not bind `message`, the template
has no malformed field, every indexed field's name is bound to the
tag-lookup object, and at most one distinct referenced name is missing. -/
lemma formatWithMessage_retry_ok (tpl : List FormatItem)
    (params : List (String × PyValue)) (msgval : String)
    (hm : ∀ p ∈ params, p.1 ≠ "message")
    (hmal : FormatItem.malformed ∉ tpl)
    (hidx : ∀ n k, FormatItem.index n k ∈ tpl →
      ∃ e d, assocFind params n = some (PyValue.tagDict e d))
    (hone : ∀ n1 n2, n1 ∈ refNames tpl → n2 ∈ refNames tpl →
      assocFind (params ++ [("message", PyValue.str "")]) n1 = none →
      assocFind (params ++ [("message", PyValue.str "")]) n2 = none →
      n1 = n2) :
    (∃ s, formatWithMessage tpl params msgval = Except.ok s) ∨
    (∃ k s, formatWithMessage tpl params msgval =
        Except.error (FormatError.keyError k) ∧
      formatWithMessage tpl (dictSet params k (PyValue.str "-")) msgval =
        Except.ok s) := by
  have hmsgf : assocFind params "message" = none :=
    assocFind_eq_none_of_forall hm
  have hfw : formatWithMessage tpl params msgval =
      formatTemplateFull tpl (params ++ [("message", PyValue.str msgval)]) := by
    rw [formatWithMessage]
    simp [any_key_message_false hm]
  cases h1 : formatTemplateFull tpl
      (params ++ [("message", PyValue.str msgval)]) with
  | ok s => exact Or.inl ⟨s, by rw [hfw, h1]⟩
  | error e =>
    cases e with
    | valueError => exact absurd (formatFull_valueError h1) hmal
    | typeError =>
      obtain ⟨n, k, s, hmem, hfind⟩ := formatFull_typeError h1
      obtain ⟨en, dn, hb⟩ := hidx n k hmem
      rw [assocFind_append_of_some _ hb] at hfind
      exact PyValue.noConfusion (Option.some.inj hfind)
    | keyError k =>
      have hk := formatFull_keyError h1
      have hkm : k ≠ "message" := by
        intro hkk
        have h2 := hk.2
        rw [hkk, assocFind_append_right_self _ _ hmsgf] at h2
        exact Option.noConfusion h2
      have hkp : assocFind params k = none := by
        have h2 := hk.2
        rwa [assocFind_append_right_ne _ _ _ hkm] at h2
      have hm2 : ∀ p ∈ dictSet params k (PyValue.str "-"),
          p.1 ≠ "message" := by
        intro p hp
        rcases keys_dictSet_subset (List.mem_map_of_mem Prod.fst hp) with
          hq | hq
        · obtain ⟨q, hqm, hqe⟩ := List.mem_map.mp hq
          rw [← hqe]
          exact hm q hqm
        · rw [hq]
          exact hkm
      have hmsg2 : assocFind (dictSet params k (PyValue.str "-"))
          "message" = none := by
        rw [assocFind_dictSet, if_neg (fun h => hkm h.symm)]
        exact hmsgf
      have hidx2 : ∀ n k2, FormatItem.index n k2 ∈ tpl →
          ∃ e d, assocFind (dictSet params k (PyValue.str "-") ++
            [("message", PyValue.str msgval)]) n =
              some (PyValue.tagDict e d) := by
        intro n k2 hmem
        obtain ⟨e, d, hb⟩ := hidx n k2 hmem
        have hnk : ¬ n = k := by
          intro he
          rw [he, hkp] at hb
          exact Option.noConfusion hb
        refine ⟨e, d, ?_⟩
        apply assocFind_append_of_some
        rw [assocFind_dictSet, if_neg hnk]
        exact hb
      have hbound2 : ∀ n ∈ refNames tpl,
          (assocFind (dictSet params k (PyValue.str "-") ++
            [("message", PyValue.str msgval)]) n).isSome = true := by
        intro n hn
        by_cases hnm : n = "message"
        · rw [hnm, assocFind_append_right_self _ _ hmsg2]
          rfl
        · rw [assocFind_append_right_ne _ _ _ hnm, assocFind_dictSet]
          by_cases hnk : n = k
          · rw [if_pos hnk]; rfl
          · rw [if_neg hnk]
            cases hf : assocFind params n with
            | some v => rfl
            | none =>
              exfalso
              apply hnk
              apply hone n k hn hk.1
              · rw [assocFind_append_right_ne _ _ _ hnm]; exact hf
              · rw [assocFind_append_right_ne _ _ _ hkm]; exact hkp
      obtain ⟨s, hs⟩ := formatFull_ok_of_forall hmal hidx2 hbound2
      have hfw2 : formatWithMessage tpl (dictSet params k (PyValue.str "-"))
          msgval = formatTemplateFull tpl
            (dictSet params k (PyValue.str "-") ++
              [("message", PyValue.str msgval)]) := by
        rw [formatWithMessage]
        simp [any_key_message_false hm2]
      exact Or.inr ⟨k, s, by rw [hfw, h1], by rw [hfw2]; exact hs⟩

lemma budgetRenderLenFull_ok (tpl : List FormatItem)
    (params : List (String × PyValue))
    (hm : ∀ p ∈ params, p.1 ≠ "message")
    (hmal : FormatItem.malformed ∉ tpl)
    (hidx : ∀ n k, FormatItem.index n k ∈ tpl →
      ∃ e d, assocFind params n = some (PyValue.tagDict e d))
    (hone : ∀ n1 n2, n1 ∈ refNames tpl → n2 ∈ refNames tpl →
      assocFind (params ++ [("message", PyValue.str "")]) n1 = none →
      assocFind (params ++ [("message", PyValue.str "")]) n2 = none →
      n1 = n2) :
    ∃ L, budgetRenderLenFull tpl params = Except.ok L := by
  rcases formatWithMessage_retry_ok tpl params truncate_warning_text hm hmal
    hidx hone with ⟨s, hs⟩ | ⟨k, s, hk, hs⟩
  · exact ⟨s.length, by simp [budgetRenderLenFull, hs]⟩
  · exact ⟨s.length, by simp [budgetRenderLenFull, hk, hs]⟩

/-! ### Claim theorems -/

/-- C1: for the configuration with one channel (token `T`, receivers
`-100/5;-200`, a single `regex__title` filter `(?i)error`) and an event
titled `"Error occurred"`, `_get_matching_channels` selects exactly that
channel, and `get_receivers_list` parses its receivers into chat `-100`
with thread `5` and chat `-200` with no thread. -/
theorem C1_routing_scenario :
    _get_matching_channels evErrorTitle [chScenario] = [chScenario] ∧
    get_receivers_list "-100/5;-200" = [["-100", "5"], ["-200"]] :=
  ⟨rfl, rfl⟩

/-- C2 (code bug): `_mask_url_token` on the URL built by `build_url` for
token `123456:ABC` returns the URL unchanged — the token is still a
substring of the "masked" output, because the code compares the whole path
segment `bot123456:ABC` against the literal `"bot"`. -/
theorem C2_token_not_masked :
    _mask_url_token (build_url "https://api.telegram.org" "123456:ABC") =
      "https://api.telegram.org/bot123456:ABC/sendMessage" ∧
    strContainsSub
      (_mask_url_token (build_url "https://api.telegram.org" "123456:ABC"))
      "123456:ABC" = true :=
  ⟨rfl, rfl⟩

/-- C4 counterexample: `compile_message_text` can fail in four documented
ways — two distinct missing plain fields raise the second `KeyError` on the
retry; an indexed field (`{tag[level]}`, the plugin's default-template
shape) whose single missing name is rebound to the string `"-"` raises an
uncaught `TypeError` on the retry; a malformed replacement field raises an
uncaught `ValueError`; and a mapping that itself binds `message` collides
with the `message` keyword argument (`TypeError`) — so the claimed "never
fails ... including when more than one referenced field is missing" is
false, and each failure mode forces one hypothesis of the amendment. -/
theorem C4_render_failure_modes :
    compile_message_text_full [FormatItem.field "a", FormatItem.field "b"]
      [] "x" = Except.error (FormatError.keyError "b") ∧
    compile_message_text_full [FormatItem.index "tag" "level"] [] "x" =
      Except.error FormatError.typeError ∧
    compile_message_text_full [FormatItem.malformed] [] "x" =
      Except.error FormatError.valueError ∧
    compile_message_text_full [FormatItem.field "message"]
      [("message", PyValue.str "m")] "x" =
      Except.error FormatError.typeError :=
  ⟨rfl, rfl, rfl, rfl⟩

/-- C4 (amended): over the full replacement-field grammar,
`compile_message_text` succeeds whenever the template has no malformed
field, every indexed field's name is bound to the tag-lookup object, the
mapping does not itself bind `message`, and at most one distinct referenced
field name is missing from the mapping — that missing field is replaced by
`"-"` and the render retried once, independently in both the
budget-estimation render and the final render.  Each hypothesis is forced
by a failure mode of the counterexample. -/
theorem C4_single_missing_field_ok (tpl : List FormatItem)
    (params : List (String × PyValue)) (msg : String)
    (hm : ∀ p ∈ params, p.1 ≠ "message")
    (hmal : FormatItem.malformed ∉ tpl)
    (hidx : ∀ n k, FormatItem.index n k ∈ tpl →
      ∃ e d, assocFind params n = some (PyValue.tagDict e d))
    (hone : ∀ n1 n2, n1 ∈ refNames tpl → n2 ∈ refNames tpl →
      assocFind (params ++ [("message", PyValue.str "")]) n1 = none →
      assocFind (params ++ [("message", PyValue.str "")]) n2 = none →
      n1 = n2) :
    ∃ s, compile_message_text_full tpl params msg = Except.ok s := by
  obtain ⟨L, hL⟩ := budgetRenderLenFull_ok tpl params hm hmal hidx hone
  obtain ⟨B, hB⟩ : ∃ B, messageBudgetFull tpl params = Except.ok B :=
    ⟨_, by rw [messageBudgetFull, hL]; rfl⟩
  rcases formatWithMessage_retry_ok tpl params (truncatedBody B msg) hm hmal
    hidx hone with ⟨s, hs⟩ | ⟨k, s, hk, hs⟩
  · exact ⟨s, by simp [compile_message_text_full, hB, hs]⟩
  · exact ⟨s, by simp [compile_message_text_full, hB, hk, hs]⟩

/-- Witness for C4: the template `{tag[level]}: {title}{message}` with only
the tag-lookup object bound (so `title` is the single missing field)
renders successfully. -/
theorem C4_single_missing_field_ok_witness :
    ∃ s, compile_message_text_full tplIndexed paramsIndexed "body" =
      Except.ok s :=
  C4_single_missing_field_ok tplIndexed paramsIndexed "body"
    (by decide)
    (by decide)
    (by
      intro n k hmem
      simp only [tplIndexed, List.mem_cons, List.not_mem_nil, or_false,
        reduceCtorEq, FormatItem.index.injEq] at hmem
      exact ⟨[("level", "error")], "[NA]", by rw [hmem.1]; rfl⟩)
    (by
      intro n1 n2 h1 h2 hu1 hu2
      have hr : refNames tplIndexed = ["tag", "title", "message"] := rfl
      rw [hr] at h1 h2
      have htag : ¬ (assocFind (paramsIndexed ++
          [("message", PyValue.str "")]) "tag" = none) := by decide
      have hmsg : ¬ (assocFind (paramsIndexed ++
          [("message", PyValue.str "")]) "message" = none) := by decide
      simp only [List.mem_cons, List.not_mem_nil, or_false] at h1 h2
      rcases h1 with h1 | h1 | h1 <;> rcases h2 with h2 | h2 | h2 <;>
        subst h1 <;> subst h2 <;>
        first
          | rfl
          | exact absurd hu1 htag
          | exact absurd hu2 htag
          | exact absurd hu1 hmsg
          | exact absurd hu2 hmsg)

/-- C5: when the budget-estimation render (with the truncation marker
standing in for the body) is at least 4096 characters long, the computed
body budget is exactly 0 and a non-empty event message is replaced entirely
by the truncation marker; in general a body exceeding the budget is
hard-truncated to the budget with the marker appended, the marker not being
counted against the budget (the truncated body is marker-length characters
longer than the budget). -/
theorem C5_truncation_law (tpl : List TemplateItem)
    (params : List (String × String)) (msg : String) (L budget : Nat) :
    (budgetRenderLen tpl params = Except.ok L → 4096 ≤ L →
      messageBudget tpl params = Except.ok 0 ∧
      (msg ≠ "" → truncatedBody 0 msg = truncate_warning_text)) ∧
    (msg.length > budget →
      truncatedBody budget msg = strTake msg budget ++ truncate_warning_text ∧
      (truncatedBody budget msg).length =
        budget + truncate_warning_text.length) := by
  constructor
  · intro hL h4096
    constructor
    · rw [messageBudget, hL]
      show Except.ok
        (if ((4096 : Int) - (L : Int)) < 0 then (0 : Nat)
         else ((4096 : Int) - (L : Int)).toNat) = Except.ok 0
      refine congrArg Except.ok ?_
      split <;> omega
    · intro hmsg
      have hlen : msg.length > 0 := by
        obtain ⟨data⟩ := msg
        cases data with
        | nil => exact absurd rfl hmsg
        | cons c cs => simp [String.length]
      rw [truncatedBody, if_pos hlen]
      show String.mk (msg.data.take 0) ++ truncate_warning_text =
        truncate_warning_text
      rfl
  · intro hgt
    refine ⟨by rw [truncatedBody, if_pos hgt], ?_⟩
    rw [truncatedBody, if_pos hgt, String.length_append]
    have htake : (strTake msg budget).length = budget := by
      have hle : budget ≤ msg.data.length := Nat.le_of_lt hgt
      show (msg.data.take budget).length = budget
      rw [List.length_take]
      omega
    rw [htake]

/-- Witness for C5: with a 4081-character literal template plus the message
field, the budget render is exactly 4096 characters, the budget is 0, a
non-empty message becomes exactly the marker, and a 6-character message
against a budget of 3 is truncated with the marker appended. -/
theorem C5_truncation_law_witness :
    messageBudget tplHuge [] = Except.ok 0 ∧
    truncatedBody 0 "x" = truncate_warning_text ∧
    truncatedBody 3 "abcdef" = strTake "abcdef" 3 ++ truncate_warning_text :=
  by
  have hfmt : formatTemplate tplHuge (withMessage [] truncate_warning_text) =
      Except.ok (String.mk (List.replicate 4081 'a') ++
        (truncate_warning_text ++ "")) := rfl
  have hlone : (String.mk (List.replicate 4081 'a')).length = 4081 := by
    show (List.replicate 4081 'a').length = 4081
    rw [List.length_replicate]
  have hlen : (String.mk (List.replicate 4081 'a') ++
      (truncate_warning_text ++ "")).length = 4096 := by
    rw [String.length_append, String.length_append, hlone]
    rfl
  have hbrl : budgetRenderLen tplHuge [] = Except.ok 4096 := by
    obtain ⟨s, hs, hsl⟩ : ∃ s,
        formatTemplate tplHuge (withMessage [] truncate_warning_text) =
          Except.ok s ∧ s.length = 4096 := ⟨_, hfmt, hlen⟩
    unfold budgetRenderLen
    rw [hs]
    show Except.ok s.length = Except.ok 4096
    rw [hsl]
  have h1 := (C5_truncation_law tplHuge [] "x" 4096 3).1 hbrl (by omega)
  have h2 := (C5_truncation_law tplHuge [] "abcdef" 4096 3).2 (by decide)
  exact ⟨h1.1, h1.2 (by decide), h2.1⟩

/-! ### Tag-predicate lemmas -/

lemma tag_ne_regex_message (name : String) :
    (("tag__" ++ name) == "regex__message") = false := by
  rw [beq_eq_false_iff_ne]
  intro h
  have hd : ("tag__" ++ name).data.head? = "regex__message".data.head? :=
    congrArg (fun l => l.data.head?) h
  have h1 : ("tag__" ++ name).data.head? = some 't' := by
    rw [String.data_append]; rfl
  rw [h1] at hd
  exact absurd hd (by decide)

lemma tag_ne_regex_title (name : String) :
    (("tag__" ++ name) == "regex__title") = false := by
  rw [beq_eq_false_iff_ne]
  intro h
  have hd : ("tag__" ++ name).data.head? = "regex__title".data.head? :=
    congrArg (fun l => l.data.head?) h
  have h1 : ("tag__" ++ name).data.head? = some 't' := by
    rw [String.data_append]; rfl
  rw [h1] at hd
  exact absurd hd (by decide)

lemma tag_isPrefix (name : String) :
    "tag__".data.isPrefixOf ("tag__" ++ name).data = true := by
  rw [String.data_append, List.isPrefixOf_iff_prefix]
  exact List.prefix_append _ _

lemma tagNameOf_append (name : String) : tagNameOf ("tag__" ++ name) = name := by
  rw [tagNameOf, String.data_append]
  have h5 : "tag__".data = ['t', 'a', 'g', '_', '_'] := rfl
  rw [h5]
  simp only [List.cons_append]
  simp only [dropThroughDoubleUnderscore]
  rw [if_neg (by decide), if_neg (by decide), if_neg (by decide),
    if_pos ⟨trivial, trivial⟩]
  rfl

lemma match_filter_tag (e : Event) (name v : String) :
    _match_filter e ("tag__" ++ name) v =
      _check_regex_match (assocFind (pyDict e.tags) name) v := by
  rw [_match_filter]
  simp only [tag_ne_regex_message name, tag_ne_regex_title name,
    tag_isPrefix name, tagNameOf_append name, Bool.false_eq_true, if_false,
    if_true]

/-- C3: evaluating a `tag__<name>` leaf against an event whose materialized
(last-write-wins) tag mapping has no entry for `<name>` is false (and total:
the lookup miss is handled, not an error). -/
theorem C3_absent_tag_is_false (e : Event) (name fvalue : String)
    (h : assocFind (pyDict e.tags) name = none) :
    _match_filter e ("tag__" ++ name) fvalue = false := by
  rw [match_filter_tag, h]
  rfl

/-- Witness for C3: an event with no tags never matches a `tag__env`
leaf. -/
theorem C3_absent_tag_is_false_witness :
    _match_filter evBlank ("tag__" ++ "env") "x" = false :=
  C3_absent_tag_is_false evBlank "env" "x" rfl

/-- C10: a non-empty filters list with no well-formed entry is not an empty
filter, is evaluated as a vacuously true conjunction, and a destination
carrying it is selected as a filtered match for every event. -/
theorem C10_vacuous_filter_list (e : Event) (l : List Json) (hne : l ≠ [])
    (hwf : ∀ f ∈ l, wellFormedChannelFilter f = false) :
    _is_empty_filter (some (Json.arr l)) = false ∧
    _check_filters_match e (some (Json.arr l)) = true ∧
    ∀ (kvs : List (String × Json)),
      assocLast kvs "filters" = some (Json.arr l) →
      _get_matching_channels e [Json.obj kvs] = [Json.obj kvs] := by
  have hempty : _is_empty_filter (some (Json.arr l)) = false := by
    rw [_is_empty_filter]
    cases l with
    | nil => exact absurd rfl hne
    | cons f rest => rfl
  have hfilter : l.filter wellFormedChannelFilter = [] := by
    rw [List.filter_eq_nil]
    intro f hf
    rw [hwf f hf]
    simp
  have hmatch : _check_filters_match e (some (Json.arr l)) = true := by
    rw [_check_filters_match]
    have hg : _is_filter_group (Json.arr l) = false := rfl
    simp only [hg, Bool.false_eq_true, if_false, hfilter, List.all_nil]
  refine ⟨hempty, hmatch, ?_⟩
  intro kvs hkvs
  have hstep : scanStep e ([], none) (Json.obj kvs) =
      ([(channelId (Json.obj kvs), Json.obj kvs)], none) := by
    rw [scanStep]
    simp only [jGet, hkvs, hempty, Bool.false_eq_true, if_false, hmatch,
      if_true]
    rfl
  show (let st := scanChannels e [Json.obj kvs];
    (if st.1.isEmpty then
      match st.2 with
      | some d => if pyTruthy d then [(channelId d, d)] else []
      | none => []
    else st.1).map (fun p => p.2)) = [Json.obj kvs]
  rw [show scanChannels e [Json.obj kvs] = scanStep e ([], none) (Json.obj kvs)
    from rfl, hstep]
  rfl

/-- Witness for C10: the destination `{"filters": [{"bogus": 1}]}` is
selected for the blank event. -/
theorem C10_vacuous_filter_list_witness :
    _get_matching_channels evBlank
        [Json.obj [("filters", Json.arr bogusFilters)]] =
      [Json.obj [("filters", Json.arr bogusFilters)]] :=
  (C10_vacuous_filter_list evBlank bogusFilters
      (by simp [bogusFilters])
      (by
        intro f hf
        simp only [bogusFilters, List.mem_singleton] at hf
        subst hf
        rfl)).2.2
    [("filters", Json.arr bogusFilters)] rfl

/-! ### pyDict lemmas -/

lemma assocFind_foldl_dictSet {α : Type} (l : List (String × α)) :
    ∀ (m : List (String × α)) (k : String),
      assocFind (l.foldl (fun m p => dictSet m p.1 p.2) m) k =
        match assocLast l k with
        | some v => some v
        | none => assocFind m k := by
  induction l with
  | nil => intro m k; rfl
  | cons p rest ih =>
    intro m k
    rw [List.foldl_cons, ih, assocLast]
    cases h : assocLast rest k with
    | some v => rfl
    | none =>
      rw [assocFind_dictSet]
      by_cases hk : k = p.1
      · subst hk
        simp
      · simp only [if_neg hk]
        have hb : (p.1 == k) = false :=
          beq_eq_false_iff_ne.mpr (fun h => hk h.symm)
        simp [hb]

lemma assocFind_pyDict {α : Type} (l : List (String × α)) (k : String) :
    assocFind (pyDict l) k = assocLast l k := by
  rw [pyDict, assocFind_foldl_dictSet]
  cases h : assocLast l k with
  | some v => rfl
  | none => rfl

lemma nodup_keys_dictSet {α : Type} {m : List (String × α)} {k : String}
    {v : α} (h : (m.map Prod.fst).Nodup) :
    ((dictSet m k v).map Prod.fst).Nodup := by
  induction m with
  | nil => simp [dictSet]
  | cons p rest ih =>
    by_cases hpk : (p.1 == k) = true
    · simpa only [dictSet, hpk, if_true, List.map_cons] using h
    · simp only [dictSet, hpk, Bool.false_eq_true, if_false, List.map_cons,
        List.nodup_cons] at h ⊢
      refine ⟨?_, ih h.2⟩
      intro hmem
      rcases keys_dictSet_subset hmem with h2 | h2
      · exact h.1 h2
      · exact absurd (beq_iff_eq.mpr h2) (by simp [hpk])

lemma nodup_keys_pyDict {α : Type} (l : List (String × α)) :
    ((pyDict l).map Prod.fst).Nodup := by
  have aux : ∀ (l : List (String × α)) (m : List (String × α)),
      (m.map Prod.fst).Nodup →
      ((l.foldl (fun m p => dictSet m p.1 p.2) m).map Prod.fst).Nodup := by
    intro l
    induction l with
    | nil => intro m hm; exact hm
    | cons p rest ih =>
      intro m hm
      rw [List.foldl_cons]
      exact ih _ (nodup_keys_dictSet hm)
  exact aux l [] (by simp)

lemma assocFind_some_mem_keys {α : Type} {m : List (String × α)} {k : String}
    {v : α} (h : assocFind m k = some v) : k ∈ m.map Prod.fst := by
  induction m with
  | nil => simp [assocFind] at h
  | cons p rest ih =>
    rw [assocFind] at h
    by_cases hpk : (p.1 == k) = true
    · simp [beq_iff_eq.mp hpk]
    · rw [if_neg (by simp [hpk])] at h
      simp [ih h]

lemma mem_values_iff_assocFind {α : Type} {m : List (String × α)}
    (h : (m.map Prod.fst).Nodup) (v : α) :
    v ∈ m.map (fun p => p.2) ↔ ∃ k, assocFind m k = some v := by
  induction m with
  | nil => simp [assocFind]
  | cons p rest ih =>
    rw [List.map_cons, List.nodup_cons] at h
    constructor
    · intro hv
      rcases List.mem_cons.mp hv with hv | hv
      · exact ⟨p.1, by rw [assocFind, if_pos (by simp), hv]⟩
      · obtain ⟨k, hk⟩ := (ih h.2).mp hv
        have hkp : ¬ (p.1 == k) = true := by
          intro hb
          exact h.1 (beq_iff_eq.mp hb ▸ assocFind_some_mem_keys hk)
        exact ⟨k, by rw [assocFind, if_neg hkp]; exact hk⟩
    · rintro ⟨k, hk⟩
      rw [assocFind] at hk
      by_cases hpk : (p.1 == k) = true
      · rw [if_pos hpk] at hk
        exact List.mem_cons.mpr (Or.inl (Option.some.inj hk).symm)
      · rw [if_neg hpk] at hk
        exact List.mem_cons.mpr (Or.inr ((ih h.2).mpr ⟨k, hk⟩))

/-- `_match_filter` on `value__tag` computes membership in the values of the
materialized tag dict. -/
lemma value_tag_eval (e : Event) (v : String) :
    _match_filter e "value__tag" v =
      ((pyDict e.tags).map (fun p => p.2)).contains v := rfl

/-- C7 counterexample: an event whose tag pair `("env", "prod")` is shadowed
by the later pair `("env", "dev")` does *not* match a `value__tag` leaf with
value `"prod"`, although `"prod"` appears as a tag pair's value — the code
materializes `dict(event.tags)` (last-write-wins) before looking at
values. -/
theorem C7_counterexample_shadowed_value :
    _match_filter evShadowedTag "value__tag" "prod" = false ∧
    "prod" ∈ evShadowedTag.tags.map (fun p => p.2) := by
  exact ⟨rfl, by simp [evShadowedTag]⟩

/-- C7 (amended): a `value__tag` leaf with value `v` is true iff `v` is the
last-written value of some tag key — i.e. `v` survives the last-write-wins
materialization; a shadowed pair's value does not count. -/
theorem C7_value_tag_last_write_wins (e : Event) (v : String) :
    _match_filter e "value__tag" v = true ↔
      ∃ k, assocLast e.tags k = some v := by
  rw [value_tag_eval]
  show ((pyDict e.tags).map (fun p => p.2)).elem v = true ↔ _
  rw [List.elem_iff]
  rw [mem_values_iff_assocFind (nodup_keys_pyDict e.tags)]
  constructor
  · rintro ⟨k, hk⟩
    exact ⟨k, by rw [← assocFind_pyDict]; exact hk⟩
  · rintro ⟨k, hk⟩
    exact ⟨k, by rw [assocFind_pyDict]; exact hk⟩

/-- Witness for C7: the surviving value `"dev"` of the shadowed key does
match. -/
theorem C7_value_tag_last_write_wins_witness :
    _match_filter evShadowedTag "value__tag" "dev" = true :=
  (C7_value_tag_last_write_wins evShadowedTag "dev").mpr ⟨"env", rfl⟩

/-! ### Escaping lemmas -/

lemma join_single (s : String) : String.join [s] = s := by
  obtain ⟨data⟩ := s
  rfl

lemma escape_single (c : Char) :
    _escape_markdown_v1 (String.mk [c]) =
      (if c = '_' || c = '*' || c = Char.ofNat 96 || c = '[' then
        String.mk ['\\', c]
      else String.mk [c]) := by
  show String.join [(if c = '_' || c = '*' || c = Char.ofNat 96 || c = '['
    then String.mk ['\\', c] else String.mk [c])] = _
  exact join_single _

lemma escape_cond_iff (c : Char) :
    (c = '_' || c = '*' || c = Char.ofNat 96 || c = '[') = true ↔
      (c = '_' ∨ c = '*' ∨ c = Char.ofNat 96 ∨ c = '[') := by
  simp [Bool.or_eq_true, decide_eq_true_eq, or_assoc]

lemma escape_single_ne_iff (c : Char) :
    (_escape_markdown_v1 (String.mk [c]) ≠ String.mk [c]) ↔
      (c = '_' ∨ c = '*' ∨ c = Char.ofNat 96 ∨ c = '[') := by
  rw [escape_single]
  by_cases h : (c = '_' || c = '*' || c = Char.ofNat 96 || c = '[') = true
  · rw [if_pos h]
    refine iff_of_true ?_ ((escape_cond_iff c).mp h)
    intro heq
    have := congrArg String.data heq
    simp at this
  · rw [if_neg h]
    exact iff_of_false (fun hne => hne rfl)
      (fun hp => h ((escape_cond_iff c).mpr hp))

/-- C8 counterexample: there is no 5-element set of characters that
`_escape_markdown_v1` escapes — the set of characters it changes has exactly
4 elements (`_`, `*`, the backtick, `[`), not five as claimed. -/
theorem C8_counterexample_not_five :
    ¬ ∃ S : Finset Char, S.card = 5 ∧
      ∀ c : Char,
        (_escape_markdown_v1 (String.mk [c]) ≠ String.mk [c] ↔ c ∈ S) := by
  rintro ⟨S, hcard, hS⟩
  have hset : S = ({'_', '*', Char.ofNat 96, '['} : Finset Char) := by
    apply Finset.ext
    intro c
    rw [← hS c, escape_single_ne_iff]
    simp [Finset.mem_insert, Finset.mem_singleton]
  rw [hset] at hcard
  have h4 : ({'_', '*', Char.ofNat 96, '['} : Finset Char).card = 4 := by
    decide
  omega

/-- C8 (amended): `_escape_markdown_v1` prefixes a backslash to exactly
*four* distinct characters — underscore, asterisk, backtick and left
bracket (the plugin's italic/bold/code/link-start markup) — leaves every
other character unchanged, and acts character by character on its input. -/
theorem C8_escapes_exactly_four :
    (∃ S : Finset Char, S.card = 4 ∧
      ∀ c : Char,
        (_escape_markdown_v1 (String.mk [c]) ≠ String.mk [c] ↔ c ∈ S)) ∧
    (∀ c : Char, (c = '_' ∨ c = '*' ∨ c = Char.ofNat 96 ∨ c = '[') →
      _escape_markdown_v1 (String.mk [c]) = String.mk ['\\', c]) ∧
    (∀ c : Char, ¬(c = '_' ∨ c = '*' ∨ c = Char.ofNat 96 ∨ c = '[') →
      _escape_markdown_v1 (String.mk [c]) = String.mk [c]) ∧
    (∀ text : String, _escape_markdown_v1 text =
      String.join (text.data.map
        (fun c => _escape_markdown_v1 (String.mk [c])))) := by
  refine ⟨⟨{'_', '*', Char.ofNat 96, '['}, by decide, ?_⟩, ?_, ?_, ?_⟩
  · intro c
    rw [escape_single_ne_iff]
    simp [Finset.mem_insert, Finset.mem_singleton]
  · intro c hc
    rw [escape_single, if_pos ((escape_cond_iff c).mpr hc)]
  · intro c hc
    rw [escape_single,
      if_neg (fun hb => hc ((escape_cond_iff c).mp hb))]
  · intro text
    have hmap : text.data.map
        (fun c => _escape_markdown_v1 (String.mk [c])) =
        text.data.map (fun c =>
          if c = '_' || c = '*' || c = Char.ofNat 96 || c = '[' then
            String.mk ['\\', c]
          else String.mk [c]) :=
      List.map_congr_left (fun c _ => escape_single c)
    rw [hmap]
    rfl

/-- Witness for C8: the asterisk is escaped and `x` is untouched. -/
theorem C8_escapes_exactly_four_witness :
    _escape_markdown_v1 (String.mk ['*']) = String.mk ['\\', '*'] ∧
    _escape_markdown_v1 (String.mk ['x']) = String.mk ['x'] :=
  ⟨C8_escapes_exactly_four.2.1 '*' (Or.inr (Or.inl rfl)),
    C8_escapes_exactly_four.2.2.1 'x' (by decide)⟩

/-- C9: configuration parsing is total and degrades every malformation to
`([], fallback)`: absent or empty text, a `json.loads` failure, a non-dict
top level, a missing or non-list `channels` key, or a
present-but-non-string `api_origin`; on success it returns the decoded
channels with the configured origin when present, else the fallback. -/
theorem C9_config_parsing_total (fb : String) :
    (∀ d, _get_channels_config_data none d fb = ([], fb)) ∧
    (∀ d, _get_channels_config_data (some "") d fb = ([], fb)) ∧
    (∀ s d, s ≠ "" →
      _get_channels_config_data (some s) d fb = parseChannelsConfig d fb) ∧
    (∀ err, parseChannelsConfig (Except.error err) fb = ([], fb)) ∧
    (∀ j, jsonIsObj j = false →
      parseChannelsConfig (Except.ok j) fb = ([], fb)) ∧
    (∀ kvs, (∀ c, assocLast kvs "channels" = some c → jsonIsArr c = false) →
      parseChannelsConfig (Except.ok (Json.obj kvs)) fb = ([], fb)) ∧
    (∀ kvs chans v, assocLast kvs "channels" = some (Json.arr chans) →
      assocLast kvs "api_origin" = some v → jsonIsStr v = false →
      parseChannelsConfig (Except.ok (Json.obj kvs)) fb = ([], fb)) ∧
    (∀ kvs chans, assocLast kvs "channels" = some (Json.arr chans) →
      assocLast kvs "api_origin" = none →
      parseChannelsConfig (Except.ok (Json.obj kvs)) fb = (chans, fb)) ∧
    (∀ kvs chans origin, assocLast kvs "channels" = some (Json.arr chans) →
      assocLast kvs "api_origin" = some (Json.str origin) →
      parseChannelsConfig (Except.ok (Json.obj kvs)) fb = (chans, origin)) := by
  refine ⟨fun d => rfl, fun d => rfl, ?_, fun err => rfl, ?_, ?_, ?_, ?_, ?_⟩
  · intro s d hs
    rw [_get_channels_config_data]
    rw [if_neg (by simp [hs])]
  · intro j hj
    cases j with
    | obj kvs => exact absurd hj (by simp [jsonIsObj])
    | null => rfl
    | bool b => rfl
    | num n => rfl
    | str s => rfl
    | arr l => rfl
  · intro kvs h
    cases hc : assocLast kvs "channels" with
    | none => simp only [parseChannelsConfig, hc]
    | some c =>
      have hca := h c hc
      cases c with
      | arr l => exact absurd hca (by simp [jsonIsArr])
      | null => simp only [parseChannelsConfig, hc]
      | bool b => simp only [parseChannelsConfig, hc]
      | num n => simp only [parseChannelsConfig, hc]
      | str s => simp only [parseChannelsConfig, hc]
      | obj kvs2 => simp only [parseChannelsConfig, hc]
  · intro kvs chans v hc ho hv
    cases v with
    | str s => exact absurd hv (by simp [jsonIsStr])
    | null => simp only [parseChannelsConfig, hc, ho]
    | bool b => simp only [parseChannelsConfig, hc, ho]
    | num n => simp only [parseChannelsConfig, hc, ho]
    | arr l => simp only [parseChannelsConfig, hc, ho]
    | obj kvs2 => simp only [parseChannelsConfig, hc, ho]
  · intro kvs chans hc ho
    simp only [parseChannelsConfig, hc, ho]
  · intro kvs chans origin hc ho
    simp only [parseChannelsConfig, hc, ho]

/-- Witness for C9: a non-dict top level degrades to the fallback, and a
well-formed configuration returns its channels and configured origin. -/
theorem C9_config_parsing_total_witness :
    parseChannelsConfig (Except.ok (Json.num 3)) "F" = ([], "F") ∧
    parseChannelsConfig
      (Except.ok (Json.obj [("channels", Json.arr [Json.obj []]),
        ("api_origin", Json.str "O")])) "F" = ([Json.obj []], "O") := by
  have h := C9_config_parsing_total "F"
  exact ⟨h.2.2.2.2.1 (Json.num 3) rfl,
    h.2.2.2.2.2.2.2.2 _ [Json.obj []] "O" rfl rfl⟩

/-! ### Destination-selection lemmas -/

lemma scan_default (e : Event) (channels : List Json) :
    ∀ st : List (String × Json) × Option Json,
      (channels.foldl (scanStep e) st).2 =
        match st.2 with
        | some d => some d
        | none => firstDefaultChannel channels := by
  induction channels with
  | nil =>
    intro st
    cases h : st.2 with
    | some d => simp [h]
    | none => simp [h, firstDefaultChannel]
  | cons c rest ih =>
    intro st
    rw [List.foldl_cons, ih]
    by_cases hemp : _is_empty_filter (jGet c "filters") = true
    · cases hd : st.2 with
      | none =>
        simp [scanStep, hemp, hd, firstDefaultChannel,
          List.find?_cons_of_pos]
      | some d => simp [scanStep, hemp, hd]
    · have hfd : firstDefaultChannel (c :: rest) = firstDefaultChannel rest := by
        rw [firstDefaultChannel, firstDefaultChannel,
          List.find?_cons_of_neg _ (by simp [hemp])]
      by_cases hm : _check_filters_match e (jGet c "filters") = true
      · simp [scanStep, hemp, hm, hfd]
      · simp [scanStep, hemp, hm, hfd]

lemma scan_matches (e : Event) (channels : List Json) :
    ∀ (m : List (String × Json)) (d : Option Json),
      (channels.foldl (scanStep e) (m, d)).1 =
        (channels.filter (fun c => !_is_empty_filter (jGet c "filters") &&
          _check_filters_match e (jGet c "filters"))).foldl
          (fun acc c => dictSet acc (channelId c) c) m := by
  induction channels with
  | nil => intro m d; rfl
  | cons c rest ih =>
    intro m d
    rw [List.foldl_cons, List.filter_cons]
    by_cases hemp : _is_empty_filter (jGet c "filters") = true
    · have hpred : (!_is_empty_filter (jGet c "filters") &&
          _check_filters_match e (jGet c "filters")) = false := by
        simp [hemp]
      rw [hpred]
      cases d with
      | none =>
        have hstep : scanStep e (m, none) c = (m, some c) := by
          simp [scanStep, hemp]
        rw [hstep, ih]
        simp
      | some dd =>
        have hstep : scanStep e (m, some dd) c = (m, some dd) := by
          simp [scanStep, hemp]
        rw [hstep, ih]
        simp
    · by_cases hm : _check_filters_match e (jGet c "filters") = true
      · have hpred : (!_is_empty_filter (jGet c "filters") &&
            _check_filters_match e (jGet c "filters")) = true := by
          simp [hemp, hm]
        rw [hpred]
        have hstep : scanStep e (m, d) c = (dictSet m (channelId c) c, d) := by
          simp [scanStep, hemp, hm]
        rw [hstep, ih]
        simp
      · have hpred : (!_is_empty_filter (jGet c "filters") &&
            _check_filters_match e (jGet c "filters")) = false := by
          simp [hm]
        rw [hpred]
        have hstep : scanStep e (m, d) c = (m, d) := by
          simp [scanStep, hemp, hm]
        rw [hstep, ih]
        simp

lemma mem_foldl_dictSet_values :
    ∀ (cs : List Json) (m : List (String × Json)) (q : String × Json),
      q ∈ cs.foldl (fun acc c => dictSet acc (channelId c) c) m →
      q ∈ m ∨ q.2 ∈ cs := by
  intro cs
  induction cs with
  | nil => intro m q h; exact Or.inl h
  | cons c rest ih =>
    intro m q h
    rw [List.foldl_cons] at h
    rcases ih _ q h with h2 | h2
    · rcases mem_dictSet h2 with h3 | h3
      · exact Or.inl h3
      · exact Or.inr (by rw [h3]; exact List.mem_cons_self _ _)
    · exact Or.inr (List.mem_cons_of_mem _ h2)

/-- C6 (amended): the recorded default candidate is the *first* destination
whose filters are empty; the matching map is exactly the insertion fold over
the non-empty-filter destinations whose filters match (empty-filter
destinations are never evaluated for matching); and the returned set is the
singleton first default iff no filtered destination matched, a default
candidate exists, *and that candidate is a truthy (non-empty) mapping* —
the source guards the fallback with Python truthiness
(`if not unique_matching_channels and default_channel:`). -/
theorem C6_default_selection (e : Event) (channels : List Json) :
    (scanChannels e channels).2 = firstDefaultChannel channels ∧
    (scanChannels e channels).1 =
      (channels.filter (fun c => !_is_empty_filter (jGet c "filters") &&
        _check_filters_match e (jGet c "filters"))).foldl
        (fun acc c => dictSet acc (channelId c) c) [] ∧
    ((∃ d, firstDefaultChannel channels = some d ∧
        _get_matching_channels e channels = [d]) ↔
      ((scanChannels e channels).1 = [] ∧
        ∃ d, firstDefaultChannel channels = some d ∧ pyTruthy d = true)) := by
  have hA : (scanChannels e channels).2 = firstDefaultChannel channels := by
    rw [scanChannels, scan_default]
  have hB : (scanChannels e channels).1 =
      (channels.filter (fun c => !_is_empty_filter (jGet c "filters") &&
        _check_filters_match e (jGet c "filters"))).foldl
        (fun acc c => dictSet acc (channelId c) c) [] := by
    rw [scanChannels, scan_matches]
  refine ⟨hA, hB, ?_, ?_⟩
  · rintro ⟨d, hd, hres⟩
    have hd' : List.find? (fun c => _is_empty_filter (jGet c "filters"))
        channels = some d := hd
    have hdemp : _is_empty_filter (jGet d "filters") = true := by
      have := List.find?_some hd'
      simpa using this
    rcases hML : (scanChannels e channels).1 with _ | ⟨q, qs⟩
    · refine ⟨rfl, d, hd, ?_⟩
      by_cases htr : pyTruthy d = true
      · exact htr
      · exfalso
        have hres0 : _get_matching_channels e channels = [] := by
          simp only [_get_matching_channels, hML, hA, hd, List.isEmpty_nil,
            if_true]
          simp [htr]
        rw [hres0] at hres
        exact List.noConfusion hres
    · exfalso
      have hres2 : _get_matching_channels e channels =
          (q :: qs).map (fun p => p.2) := by
        simp only [_get_matching_channels, hML, List.isEmpty_cons,
          Bool.false_eq_true, if_false]
      have hdm : d ∈ (q :: qs).map (fun p => p.2) := by
        rw [← hres2, hres]
        exact List.mem_singleton_self d
      obtain ⟨p, hp, hpd⟩ := List.mem_map.mp hdm
      have hpmem := mem_foldl_dictSet_values _ _ p (by rw [← hB, hML]; exact hp)
      rcases hpmem with h0 | hin
      · exact List.not_mem_nil p h0
      · rw [hpd] at hin
        have hpred := List.of_mem_filter hin
        simp [hdemp] at hpred
  · rintro ⟨hm, d, hd, htr⟩
    refine ⟨d, hd, ?_⟩
    simp only [_get_matching_channels, hm, hA, hd, List.isEmpty_nil, if_true,
      htr]
    rfl

/-- C6 counterexample: for a configuration whose only destination is the
empty mapping, that destination is recorded as the (first) default
candidate and no filtered destination matches, yet the result is empty —
not the singleton default the claim requires — because the empty dict is
falsy. -/
theorem C6_counterexample_falsy_default :
    firstDefaultChannel [Json.obj []] = some (Json.obj []) ∧
    (scanChannels evBlank [Json.obj []]).1 = [] ∧
    _get_matching_channels evBlank [Json.obj []] = [] :=
  ⟨rfl, rfl, rfl⟩

/-- Witness for C6: a single truthy filterless destination is returned as
the default. -/
theorem C6_default_selection_witness :
    _get_matching_channels evBlank [chDefaultFixture] = [chDefaultFixture] := by
  obtain ⟨d, hd, hres⟩ :=
    (C6_default_selection evBlank [chDefaultFixture]).2.2.mpr
      ⟨rfl, chDefaultFixture, rfl, rfl⟩
  have hd2 : some chDefaultFixture = some d := by rw [← hd]; rfl
  rw [← Option.some.inj hd2] at hres
  exact hres

end SentryTelegramPlus
